import Mathlib

/-!
Verification of the ITE College West capacity-charge model
(src/app/page.tsx). The cost model, optimizer, derivation layer and the
pointer-drag interaction controller are embedded as executable Lean
definitions over the rationals; the pointer-drag arithmetic, which in the
source runs on JavaScript numbers, is embedded via a small JavaScript
number domain with NaN and signed infinities so that the degenerate
zero-height division is modelled faithfully.
-/

namespace IteWest

/-- Contracted-capacity tariff rate fixed inline in the source:
16.37 dollars per kW per month. -/
def contractedRate : ℚ := 16.37

/-- Exceedance tariff rate fixed inline in the source:
24.56 dollars per kW of exceedance per month. -/
def exceedanceRate : ℚ := 24.56

/-- Historical monthly maximum demands in kW, May through December
(line 23 of the source). -/
def maxDemands : List ℚ := [3114, 2736, 1467, 3894, 3085, 3077, 3113, 3098]

/-- Per-period effective demand after battery peak shaving,
Math.max(0, demand - batteryCapacity), mapped over a demand series
(line 39 of the source maps it over the fixed maxDemands; the series is
kept as an argument so claims quantified over demand series can be
stated). -/
def effectiveSeries (demands : List ℚ) (batteryCapacity : ℚ) : List ℚ :=
  demands.map (fun demand => max 0 (demand - batteryCapacity))

/-- The effectiveDemands array of the source: effectiveSeries applied to
the fixed maxDemands. -/
def effectiveDemands (batteryCapacity : ℚ) : List ℚ :=
  effectiveSeries maxDemands batteryCapacity

/-- calculateMonthlyCharge with the two tariff rates as explicit
parameters; the source fixes cr = 16.37 and er = 24.56 inline
(lines 44 to 49). -/
def calculateMonthlyChargeT (cr er effectiveDemand capacity : ℚ) : ℚ :=
  let contractedCharge := capacity * cr
  let exceedance := max 0 (effectiveDemand - capacity)
  let uncontractedCharge := exceedance * er
  contractedCharge + uncontractedCharge

/-- calculateMonthlyCharge of the source (lines 44 to 49), with the
rates it hard-codes. -/
def calculateMonthlyCharge (effectiveDemand capacity : ℚ) : ℚ :=
  calculateMonthlyChargeT contractedRate exceedanceRate effectiveDemand capacity

/-- calculateTotalCharge with tariff rates and effective-demand series as
explicit parameters: sum of the monthly charges over the series
(lines 52 to 56 of the source). -/
def calculateTotalChargeT (cr er : ℚ) (eff : List ℚ) (capacity : ℚ) : ℚ :=
  (eff.map (fun effDemand => calculateMonthlyChargeT cr er effDemand capacity)).foldl
    (fun sum charge => sum + charge) 0

/-- calculateTotalCharge of the source (lines 52 to 56): total over the
battery-adjusted effective demands with the hard-coded rates. -/
def calculateTotalCharge (batteryCapacity capacity : ℚ) : ℚ :=
  calculateTotalChargeT contractedRate exceedanceRate (effectiveDemands batteryCapacity) capacity

/-- The candidate capacities scanned by the optimizer loop of the source
(line 62): for (let capacity = 1000; capacity <= 4000; capacity += 10). -/
def capacityGrid : List ℚ := (List.range 301).map (fun i : ℕ => 1000 + 10 * (i : ℚ))

/-- One iteration of the optimizer loop body (lines 63 to 67): the
accumulator is (optimalCapacity, minCost), with minCost = none standing
for the initial Infinity, against which any finite cost compares lower. -/
def optStep (cost : ℚ → ℚ) (acc : ℚ × Option ℚ) (capacity : ℚ) : ℚ × Option ℚ :=
  match acc with
  | (_, none) => (capacity, some (cost capacity))
  | (optimalCapacity, some minCost) =>
      if cost capacity < minCost then (capacity, some (cost capacity))
      else (optimalCapacity, some minCost)

/-- findOptimalCapacity with tariff rates and effective-demand series as
explicit parameters (lines 59 to 70 of the source): scan the grid,
starting from optimalCapacity = 0 and minCost = Infinity, keep the
candidate only on a strictly lower cost, and return the capacity. -/
def findOptimalCapacityT (cr er : ℚ) (eff : List ℚ) : ℚ :=
  (capacityGrid.foldl (optStep (calculateTotalChargeT cr er eff)) (0, none)).1

/-- findOptimalCapacity of the source (lines 59 to 70), over the
battery-adjusted effective demands with the hard-coded rates. -/
def findOptimalCapacity (batteryCapacity : ℚ) : ℚ :=
  findOptimalCapacityT contractedRate exceedanceRate (effectiveDemands batteryCapacity)

/-- monthlyCharges of the source (lines 83 to 85): per-period charge at
the current battery and contracted capacity. -/
def monthlyCharges (batteryCapacity contractedCapacity : ℚ) : List ℚ :=
  (effectiveDemands batteryCapacity).map
    (fun effDemand => calculateMonthlyCharge effDemand contractedCapacity)

/-- totalCharge of the source (line 86). -/
def totalCharge (batteryCapacity contractedCapacity : ℚ) : ℚ :=
  (monthlyCharges batteryCapacity contractedCapacity).foldl (fun sum charge => sum + charge) 0

/-- originalCharges of the source (line 89): raw demands, no battery, at
the fixed baseline capacity 3100. -/
def originalCharges : List ℚ :=
  maxDemands.map (fun demand => calculateMonthlyCharge demand 3100)

/-- totalOriginalCharge of the source (line 90). -/
def totalOriginalCharge : ℚ :=
  originalCharges.foldl (fun sum charge => sum + charge) 0

/-- savings of the source (line 93): baseline total minus current total. -/
def savings (batteryCapacity contractedCapacity : ℚ) : ℚ :=
  totalOriginalCharge - totalCharge batteryCapacity contractedCapacity

/-- monthlySavings of the source (lines 110 to 114): per-period baseline
charge minus current charge. -/
def monthlySavings (batteryCapacity contractedCapacity : ℚ) : List ℚ :=
  List.zipWith (fun demand newCharge => calculateMonthlyCharge demand 3100 - newCharge)
    maxDemands (monthlyCharges batteryCapacity contractedCapacity)

/-- Maximum of a nonempty list, as Math.max applied to a spread array
(line 41 of the source); the empty case is never reached for the fixed
8-entry series. -/
def listMax : List ℚ → ℚ
  | [] => 0
  | [x] => x
  | x :: y :: xs => max x (listMax (y :: xs))

/-- Minimum of a nonempty list, as Math.min applied to a spread array
(line 40 of the source). -/
def listMin : List ℚ → ℚ
  | [] => 0
  | [x] => x
  | x :: y :: xs => min x (listMin (y :: xs))

/-- maxEffectiveDemand of the source (line 41). -/
def maxEffectiveDemand (batteryCapacity : ℚ) : ℚ :=
  listMax (effectiveDemands batteryCapacity)

/-- minEffectiveDemand of the source (line 40). -/
def minEffectiveDemand (batteryCapacity : ℚ) : ℚ :=
  listMin (effectiveDemands batteryCapacity)

/-- The three rationale texts the page can render: the positive-savings
peak-reduction sentence (line 321) and the two negative-savings
sentences of negativeReason (lines 99 to 107), of which the too-low
default and the below-minimum branch are the identical string, hence a
single constructor. -/
inductive Rationale
  | peakReduction
  | overContracting
  | underContracting
deriving DecidableEq

/-- negativeReason of the source (lines 99 to 107): default is the
under-contracting string; replaced by the over-contracting string when
contractedCapacity > maxEffectiveDemand, and re-assigned the identical
under-contracting string when contractedCapacity < minEffectiveDemand. -/
def negativeReason (batteryCapacity contractedCapacity : ℚ) : Rationale :=
  if contractedCapacity > maxEffectiveDemand batteryCapacity then
    Rationale.overContracting
  else if contractedCapacity < minEffectiveDemand batteryCapacity then
    Rationale.underContracting
  else
    Rationale.underContracting

/-- The rationale the page renders (lines 318 to 323): the peak-reduction
sentence when isPositiveSavings (savings greater or equal 0, line 94),
else negativeReason. -/
def rationale (batteryCapacity contractedCapacity : ℚ) : Rationale :=
  if savings batteryCapacity contractedCapacity ≥ 0 then Rationale.peakReduction
  else negativeReason batteryCapacity contractedCapacity

/-- The mutable session state of the page: the two useState numbers
batteryCapacity (line 26) and contractedCapacity (line 27). -/
structure ModelState where
  batteryCapacity : ℚ
  contractedCapacity : ℚ
deriving DecidableEq

/-- The battery-capacity input handler (line 190 of the source):
setBatteryCapacity(Number(e.target.value)), storing the parsed number
with no clamping. -/
def batteryInputChange (s : ModelState) (value : ℚ) : ModelState :=
  { s with batteryCapacity := value }

/-- The contracted-capacity input handler (line 204 of the source):
setContractedCapacity(Number(e.target.value)), storing the parsed number
with no clamping. -/
def contractedInputChange (s : ModelState) (value : ℚ) : ModelState :=
  { s with contractedCapacity := value }

/-- The capacity stored by handleSetOptimalCapacity (lines 73 to 75): the
optimizer result, which reads only the battery-adjusted demands. -/
def handleSetOptimalCapacityResult (s : ModelState) : ℚ :=
  findOptimalCapacity s.batteryCapacity

/-- JavaScript double values as far as the drag-mapping arithmetic can
observe them: NaN, the two infinities, or a finite (here rational)
number. -/
inductive JSNum
  | nan
  | inf
  | ninf
  | num (q : ℚ)
deriving DecidableEq

/-- JavaScript subtraction on the JSNum domain. -/
def jsSub : JSNum → JSNum → JSNum
  | JSNum.num a, JSNum.num b => JSNum.num (a - b)
  | JSNum.num _, JSNum.inf => JSNum.ninf
  | JSNum.num _, JSNum.ninf => JSNum.inf
  | JSNum.inf, JSNum.num _ => JSNum.inf
  | JSNum.ninf, JSNum.num _ => JSNum.ninf
  | JSNum.inf, JSNum.ninf => JSNum.inf
  | JSNum.ninf, JSNum.inf => JSNum.ninf
  | _, _ => JSNum.nan

/-- JavaScript multiplication on the JSNum domain. -/
def jsMul : JSNum → JSNum → JSNum
  | JSNum.num a, JSNum.num b => JSNum.num (a * b)
  | JSNum.num a, JSNum.inf =>
      if 0 < a then JSNum.inf else if a < 0 then JSNum.ninf else JSNum.nan
  | JSNum.num a, JSNum.ninf =>
      if 0 < a then JSNum.ninf else if a < 0 then JSNum.inf else JSNum.nan
  | JSNum.inf, JSNum.num b =>
      if 0 < b then JSNum.inf else if b < 0 then JSNum.ninf else JSNum.nan
  | JSNum.ninf, JSNum.num b =>
      if 0 < b then JSNum.ninf else if b < 0 then JSNum.inf else JSNum.nan
  | JSNum.inf, JSNum.inf => JSNum.inf
  | JSNum.inf, JSNum.ninf => JSNum.ninf
  | JSNum.ninf, JSNum.inf => JSNum.ninf
  | JSNum.ninf, JSNum.ninf => JSNum.inf
  | _, _ => JSNum.nan

/-- JavaScript division on the JSNum domain: division by zero gives NaN
for a zero numerator and a signed infinity otherwise. -/
def jsDiv : JSNum → JSNum → JSNum
  | JSNum.num a, JSNum.num b =>
      if b = 0 then
        if a = 0 then JSNum.nan else if 0 < a then JSNum.inf else JSNum.ninf
      else JSNum.num (a / b)
  | JSNum.inf, JSNum.num b => if 0 ≤ b then JSNum.inf else JSNum.ninf
  | JSNum.ninf, JSNum.num b => if 0 ≤ b then JSNum.ninf else JSNum.inf
  | JSNum.num _, JSNum.inf => JSNum.num 0
  | JSNum.num _, JSNum.ninf => JSNum.num 0
  | _, _ => JSNum.nan

/-- Math.round on the JSNum domain: round half toward positive infinity
on finite values, identity on infinities, NaN on NaN. -/
def jsRound : JSNum → JSNum
  | JSNum.num q => JSNum.num ((round q : ℤ) : ℚ)
  | JSNum.inf => JSNum.inf
  | JSNum.ninf => JSNum.ninf
  | JSNum.nan => JSNum.nan

/-- Math.min on the JSNum domain: NaN if either argument is NaN. -/
def jsMin : JSNum → JSNum → JSNum
  | JSNum.nan, _ => JSNum.nan
  | _, JSNum.nan => JSNum.nan
  | JSNum.num a, JSNum.num b => JSNum.num (min a b)
  | JSNum.num a, JSNum.inf => JSNum.num a
  | JSNum.ninf, _ => JSNum.ninf
  | _, JSNum.ninf => JSNum.ninf
  | JSNum.inf, x => x

/-- Math.max on the JSNum domain: NaN if either argument is NaN. -/
def jsMax : JSNum → JSNum → JSNum
  | JSNum.nan, _ => JSNum.nan
  | _, JSNum.nan => JSNum.nan
  | JSNum.num a, JSNum.num b => JSNum.num (max a b)
  | JSNum.num a, JSNum.ninf => JSNum.num a
  | JSNum.inf, _ => JSNum.inf
  | _, JSNum.inf => JSNum.inf
  | JSNum.ninf, x => x

/-- handleMouseMove of the source while dragging (lines 127 to 138):
chartHeight is the bounding-box height and yPixel the pointer offset from
its top; when 0 <= yPixel <= chartHeight the new capacity
Math.max(1000, Math.min(4000, Math.round(((1 - yPixel / chartHeight) * 4000) / 10) * 10))
is stored, computed in JavaScript number arithmetic; otherwise the stored
capacity is left unchanged. -/
def handleMouseMove (chartHeight yPixel : ℚ) (contractedCapacity : JSNum) : JSNum :=
  if 0 ≤ yPixel ∧ yPixel ≤ chartHeight then
    let yValue :=
      jsMul (jsSub (JSNum.num 1) (jsDiv (JSNum.num yPixel) (JSNum.num chartHeight)))
        (JSNum.num 4000)
    let newCapacity := jsMul (jsRound (jsDiv yValue (JSNum.num 10))) (JSNum.num 10)
    jsMax (JSNum.num 1000) (jsMin (JSNum.num 4000) newCapacity)
  else contractedCapacity

/-! Shared lemmas about the optimizer loop. -/

/-- Folding the optimizer step from a finite running minimum m held at
capacity c over a strictly ascending candidate list yields the running
minimum of the costs, held at the earliest (hence smallest) candidate
that strictly improved on m, or the initial pair if none did. -/
lemma foldl_optStep_some (cost : ℚ → ℚ) :
    ∀ (l : List ℚ) (c m : ℚ), List.Pairwise (· < ·) l → (∀ x ∈ l, c < x) →
      ∃ cBest mBest,
        l.foldl (optStep cost) (c, some m) = (cBest, some mBest) ∧
        mBest ≤ m ∧ (∀ x ∈ l, mBest ≤ cost x) ∧
        ((cBest = c ∧ mBest = m) ∨ (cBest ∈ l ∧ cost cBest = mBest ∧ mBest < m)) ∧
        (∀ x ∈ l, cost x = mBest → cBest ≤ x) := by
  intro l
  induction l with
  | nil =>
      intro c m _ _
      exact ⟨c, m, rfl, le_refl m, by simp, Or.inl ⟨rfl, rfl⟩, by simp⟩
  | cons a xs ih =>
      intro c m hp hc
      have hpa : ∀ x ∈ xs, a < x := (List.pairwise_cons.mp hp).1
      have hpxs : List.Pairwise (· < ·) xs := (List.pairwise_cons.mp hp).2
      by_cases h : cost a < m
      · have hstep : (a :: xs).foldl (optStep cost) (c, some m)
            = xs.foldl (optStep cost) (a, some (cost a)) := by
          simp [List.foldl_cons, optStep, h]
        obtain ⟨cB, mB, heq, hle, hall, hdisj, htie⟩ := ih a (cost a) hpxs hpa
        refine ⟨cB, mB, hstep.trans heq, hle.trans h.le, ?_, ?_, ?_⟩
        · intro x hx
          rcases List.mem_cons.mp hx with rfl | hx
          · exact hle
          · exact hall x hx
        · rcases hdisj with ⟨hcB, hmB⟩ | ⟨hmem, hceq, hlt⟩
          · exact Or.inr ⟨hcB ▸ List.mem_cons_self a xs, by rw [hcB, hmB], hmB ▸ h⟩
          · exact Or.inr ⟨List.mem_cons_of_mem a hmem, hceq, hlt.trans h⟩
        · intro x hx hxc
          rcases List.mem_cons.mp hx with hxa | hx
          · rcases hdisj with ⟨hcB, hmB⟩ | ⟨hmem, hceq, hlt⟩
            · exact le_of_eq (hcB.trans hxa.symm)
            · rw [hxa] at hxc
              rw [hxc] at hlt
              exact absurd hlt (lt_irrefl _)
          · exact htie x hx hxc
      · have hstep : (a :: xs).foldl (optStep cost) (c, some m)
            = xs.foldl (optStep cost) (c, some m) := by
          simp [List.foldl_cons, optStep, h]
        have hm : m ≤ cost a := not_lt.mp h
        obtain ⟨cB, mB, heq, hle, hall, hdisj, htie⟩ :=
          ih c m hpxs (fun x hx => hc x (List.mem_cons_of_mem a hx))
        refine ⟨cB, mB, hstep.trans heq, hle, ?_, ?_, ?_⟩
        · intro x hx
          rcases List.mem_cons.mp hx with rfl | hx
          · exact hle.trans hm
          · exact hall x hx
        · rcases hdisj with hl | ⟨hmem, hceq, hlt⟩
          · exact Or.inl hl
          · exact Or.inr ⟨List.mem_cons_of_mem a hmem, hceq, hlt⟩
        · intro x hx hxc
          rcases List.mem_cons.mp hx with hxa | hx
          · rcases hdisj with ⟨hcB, hmB⟩ | ⟨hmem, hceq, hlt⟩
            · rw [hcB, hxa]
              exact (hc a (List.mem_cons_self a xs)).le
            · have hlt2 : mB < cost x := by
                rw [hxa]
                exact lt_of_lt_of_le hlt hm
              rw [hxc] at hlt2
              exact absurd hlt2 (lt_irrefl _)
          · exact htie x hx hxc

/-- Folding the optimizer step from the initial pair (0, Infinity) over a
nonempty strictly ascending candidate list returns a candidate of
minimal cost, the smallest such candidate. -/
lemma foldl_optStep_none (cost : ℚ → ℚ) (l : List ℚ) (c : ℚ) (hne : l ≠ [])
    (hp : List.Pairwise (· < ·) l) :
    ∃ cBest mBest,
      l.foldl (optStep cost) (c, none) = (cBest, some mBest) ∧
      cBest ∈ l ∧ cost cBest = mBest ∧
      (∀ x ∈ l, mBest ≤ cost x) ∧ (∀ x ∈ l, cost x = mBest → cBest ≤ x) := by
  cases l with
  | nil => exact absurd rfl hne
  | cons a xs =>
    have hpa : ∀ x ∈ xs, a < x := (List.pairwise_cons.mp hp).1
    have hpxs : List.Pairwise (· < ·) xs := (List.pairwise_cons.mp hp).2
    have hstep : (a :: xs).foldl (optStep cost) (c, none)
        = xs.foldl (optStep cost) (a, some (cost a)) := by
      simp [List.foldl_cons, optStep]
    obtain ⟨cB, mB, heq, hle, hall, hdisj, htie⟩ :=
      foldl_optStep_some cost xs a (cost a) hpxs hpa
    refine ⟨cB, mB, hstep.trans heq, ?_, ?_, ?_, ?_⟩
    · rcases hdisj with ⟨hcB, _⟩ | ⟨hmem, _, _⟩
      · exact hcB ▸ List.mem_cons_self a xs
      · exact List.mem_cons_of_mem a hmem
    · rcases hdisj with ⟨hcB, hmB⟩ | ⟨_, hceq, _⟩
      · rw [hcB, hmB]
      · exact hceq
    · intro x hx
      rcases List.mem_cons.mp hx with hxa | hx
      · rw [hxa]
        exact hle
      · exact hall x hx
    · intro x hx hxc
      rcases List.mem_cons.mp hx with hxa | hx
      · rcases hdisj with ⟨hcB, _⟩ | ⟨_, _, hlt⟩
        · exact le_of_eq (hcB.trans hxa.symm)
        · rw [hxa] at hxc
          rw [hxc] at hlt
          exact absurd hlt (lt_irrefl _)
      · exact htie x hx hxc

/-- The candidate grid is nonempty. -/
lemma capacityGrid_ne_nil : capacityGrid ≠ [] := by
  have hlen : capacityGrid.length = 301 := by
    rw [capacityGrid, List.length_map, List.length_range]
  intro h
  rw [h] at hlen
  exact absurd hlen (by norm_num)

/-- The candidate grid is strictly ascending. -/
lemma capacityGrid_pairwise : List.Pairwise (· < ·) capacityGrid := by
  rw [capacityGrid, List.pairwise_map]
  have h : List.Pairwise (· < ·) (List.range 301) := List.sorted_lt_range 301
  refine h.imp ?_
  intro i j hij
  have hq : (i : ℚ) < (j : ℚ) := Nat.cast_lt.mpr hij
  linarith

/-- Every grid candidate is an integer multiple of 10. -/
lemma mem_capacityGrid_mul10 : ∀ x ∈ capacityGrid, ∃ k : ℤ, x = 10 * k := by
  intro x hx
  rw [capacityGrid, List.mem_map] at hx
  obtain ⟨i, _, hix⟩ := hx
  refine ⟨100 + (i : ℤ), ?_⟩
  rw [← hix]
  push_cast
  ring

/-- The default capacity 3100 is one of the grid candidates. -/
lemma mem_capacityGrid_3100 : (3100 : ℚ) ∈ capacityGrid := by
  rw [capacityGrid, List.mem_map]
  refine ⟨210, ?_, ?_⟩
  · exact List.mem_range.mpr (by norm_num)
  · norm_num

/-- The optimizer returns a grid candidate of minimal total cost, and the
smallest candidate among those of minimal cost. -/
lemma findOptimalCapacityT_spec (cr er : ℚ) (eff : List ℚ) :
    findOptimalCapacityT cr er eff ∈ capacityGrid ∧
    (∀ x ∈ capacityGrid,
        calculateTotalChargeT cr er eff (findOptimalCapacityT cr er eff) ≤
          calculateTotalChargeT cr er eff x) ∧
    (∀ x ∈ capacityGrid,
        calculateTotalChargeT cr er eff x =
            calculateTotalChargeT cr er eff (findOptimalCapacityT cr er eff) →
          findOptimalCapacityT cr er eff ≤ x) := by
  obtain ⟨cB, mB, heq, hmem, hcost, hall, htie⟩ :=
    foldl_optStep_none (calculateTotalChargeT cr er eff) capacityGrid 0
      capacityGrid_ne_nil capacityGrid_pairwise
  have hr : findOptimalCapacityT cr er eff = cB := by
    unfold findOptimalCapacityT
    rw [heq]
  rw [hr]
  refine ⟨hmem, ?_, ?_⟩
  · intro x hx
    rw [hcost]
    exact hall x hx
  · intro x hx hxc
    exact htie x hx (hxc.trans hcost)

/-- With no battery, the monthly charge of an effective demand
max(0, d - 0) at capacity 3100 equals the charge of the raw demand d,
for any tariff rates, including nonpositive raw demands (both
exceedances vanish below the positive capacity). -/
lemma monthlyChargeT_zero_battery (cr er d : ℚ) :
    calculateMonthlyChargeT cr er (max 0 (d - 0)) 3100 = calculateMonthlyChargeT cr er d 3100 := by
  simp only [calculateMonthlyChargeT, sub_zero]
  rcases le_total 0 d with hd | hd
  · rw [max_eq_right hd]
  · rw [max_eq_left hd, max_eq_left (by norm_num : (0:ℚ) - 3100 ≤ 0),
      max_eq_left (by linarith : d - 3100 ≤ 0)]

/-- With no battery the total charge at capacity 3100 over the effective
series equals the total over the raw series, for any tariff. -/
lemma totalChargeT_zero_battery (cr er : ℚ) (demands : List ℚ) :
    calculateTotalChargeT cr er (effectiveSeries demands 0) 3100 =
      calculateTotalChargeT cr er demands 3100 := by
  unfold calculateTotalChargeT effectiveSeries
  rw [List.map_map]
  congr 1
  refine List.map_congr_left ?_
  intro d _
  exact monthlyChargeT_zero_battery cr er d

/-- Clamping an integer multiple of 10 between 1000 and 4000 yields an
integer multiple of 10. -/
lemma clamp_mul10 (k : ℤ) :
    ∃ j : ℤ, max (1000:ℚ) (min 4000 ((k:ℚ) * 10)) = 10 * j := by
  rcases max_choice (1000:ℚ) (min 4000 ((k:ℚ) * 10)) with h | h
  · rw [h]
    exact ⟨100, by norm_num⟩
  · rw [h]
    rcases min_choice (4000:ℚ) ((k:ℚ) * 10) with h2 | h2
    · rw [h2]
      exact ⟨400, by norm_num⟩
    · rw [h2]
      exact ⟨k, by ring⟩

/-- On a pointer move inside the plot area of nonzero height, the drag
mapping stores the rounded, clamped capacity as a finite number. -/
lemma handleMouseMove_inRange (chartHeight yPixel : ℚ) (cur : JSNum)
    (hH : chartHeight ≠ 0) (h0 : 0 ≤ yPixel) (hy : yPixel ≤ chartHeight) :
    handleMouseMove chartHeight yPixel cur =
      JSNum.num (max 1000 (min 4000
        (((round ((1 - yPixel / chartHeight) * 4000 / 10) : ℤ) : ℚ) * 10))) := by
  unfold handleMouseMove
  rw [if_pos ⟨h0, hy⟩]
  simp [jsDiv, jsSub, jsMul, jsRound, jsMin, jsMax, hH]

/-- On a pointer move at the top edge of a zero-height plot area the
guard passes, 0 / 0 evaluates to NaN, and NaN propagates into the stored
capacity. -/
lemma handleMouseMove_zero_height (cur : JSNum) :
    handleMouseMove 0 0 cur = JSNum.nan := by
  unfold handleMouseMove
  rw [if_pos ⟨le_refl 0, le_refl 0⟩]
  simp [jsDiv, jsSub, jsMul, jsRound, jsMin, jsMax]

/-! The claims. -/

/-- C1: for every demand series, battery capacity and tariff, the
optimizer returns a grid candidate whose total charge is minimal over
the grid; among candidates of equal minimal cost the smallest capacity
is kept (a candidate replaces the best only on a strictly lower cost),
and two calls on identical inputs return the identical capacity. -/
theorem c1_findOptimalCapacity_spec (cr er batteryCapacity : ℚ) (demands : List ℚ) :
    findOptimalCapacityT cr er (effectiveSeries demands batteryCapacity) ∈ capacityGrid ∧
    (∀ x ∈ capacityGrid,
        calculateTotalChargeT cr er (effectiveSeries demands batteryCapacity)
            (findOptimalCapacityT cr er (effectiveSeries demands batteryCapacity)) ≤
          calculateTotalChargeT cr er (effectiveSeries demands batteryCapacity) x) ∧
    (∀ x ∈ capacityGrid,
        calculateTotalChargeT cr er (effectiveSeries demands batteryCapacity) x =
            calculateTotalChargeT cr er (effectiveSeries demands batteryCapacity)
              (findOptimalCapacityT cr er (effectiveSeries demands batteryCapacity)) →
          findOptimalCapacityT cr er (effectiveSeries demands batteryCapacity) ≤ x) ∧
    (∀ (demands2 : List ℚ) (battery2 : ℚ), demands2 = demands → battery2 = batteryCapacity →
        findOptimalCapacityT cr er (effectiveSeries demands2 battery2) =
          findOptimalCapacityT cr er (effectiveSeries demands batteryCapacity)) := by
  obtain ⟨h1, h2, h3⟩ := findOptimalCapacityT_spec cr er (effectiveSeries demands batteryCapacity)
  exact ⟨h1, h2, h3, fun d2 b2 hd hb => by rw [hd, hb]⟩

/-- Witness for C1: at the reference inputs the optimizer result is a
grid candidate and its total charge does not exceed the one at the
default capacity 3100, which is a grid candidate. -/
theorem c1_witness :
    findOptimalCapacityT contractedRate exceedanceRate (effectiveSeries maxDemands 400) ∈
        capacityGrid ∧
    calculateTotalChargeT contractedRate exceedanceRate (effectiveSeries maxDemands 400)
        (findOptimalCapacityT contractedRate exceedanceRate (effectiveSeries maxDemands 400)) ≤
      calculateTotalChargeT contractedRate exceedanceRate (effectiveSeries maxDemands 400) 3100 := by
  obtain ⟨h1, h2, h3, h4⟩ :=
    c1_findOptimalCapacity_spec contractedRate exceedanceRate 400 maxDemands
  exact ⟨h1, h2 3100 mem_capacityGrid_3100⟩

/-- C2 counterexample: at the reference inputs the August charge is
exactly 60423.64, hence not the 60424.64 the claim states. -/
theorem c2_counterexample :
    calculateMonthlyCharge 3494 3100 = 60423.64 ∧ (60423.64 : ℚ) ≠ 60424.64 := by
  constructor
  · norm_num [calculateMonthlyCharge, calculateMonthlyChargeT, contractedRate, exceedanceRate]
  · norm_num

/-- C2 amended: with the reference inputs the effective-demand series is
as stated; the July charge (effective demand 1067, zero exceedance) is
3100 times 16.37, that is 50747; the August charge (effective demand
3494, exceedance 394) is 50747 plus 394 times 24.56, that is 60423.64
(not 60424.64). -/
theorem c2_reference_scenario :
    effectiveDemands 400 = [2714, 2336, 1067, 3494, 2685, 2677, 2713, 2698] ∧
    max 0 ((1067:ℚ) - 3100) = 0 ∧
    calculateMonthlyCharge 1067 3100 = 3100 * 16.37 ∧
    calculateMonthlyCharge 1067 3100 = 50747 ∧
    max 0 ((3494:ℚ) - 3100) = 394 ∧
    calculateMonthlyCharge 3494 3100 = 50747 + 394 * 24.56 ∧
    calculateMonthlyCharge 3494 3100 = 60423.64 := by
  refine ⟨?_, ?_, ?_, ?_, ?_, ?_, ?_⟩ <;>
    norm_num [effectiveDemands, effectiveSeries, maxDemands, calculateMonthlyCharge,
      calculateMonthlyChargeT, contractedRate, exceedanceRate]

/-- C3: for every model state the net savings equals the sum of the
per-period savings exactly. -/
theorem c3_savings_decomposition (batteryCapacity contractedCapacity : ℚ) :
    savings batteryCapacity contractedCapacity =
      (monthlySavings batteryCapacity contractedCapacity).foldl (fun sum x => sum + x) 0 := by
  simp only [savings, monthlySavings, totalCharge, monthlyCharges, totalOriginalCharge,
    originalCharges, effectiveDemands, effectiveSeries, maxDemands, List.map_cons,
    List.map_nil, List.zipWith_cons_cons, List.zipWith_nil_right, List.foldl_cons,
    List.foldl_nil]
  ring

/-- C4: for every demand series and tariff, the total charge of the
battery-zero effective series at capacity 3100 equals the total charge
of the raw series at 3100; in particular, in the fixed scenario,
totalCharge at battery 0 and capacity 3100 equals totalOriginalCharge. -/
theorem c4_baseline_symmetry (cr er : ℚ) (demands : List ℚ) :
    calculateTotalChargeT cr er (effectiveSeries demands 0) 3100 =
        calculateTotalChargeT cr er demands 3100 ∧
    totalCharge 0 3100 = totalOriginalCharge := by
  refine ⟨totalChargeT_zero_battery cr er demands, ?_⟩
  norm_num [totalCharge, monthlyCharges, effectiveDemands, effectiveSeries, maxDemands,
    totalOriginalCharge, originalCharges, calculateMonthlyCharge, calculateMonthlyChargeT,
    contractedRate, exceedanceRate]

/-- C5: the rendered rationale follows the three-way rule: peak
reduction when savings are nonnegative, otherwise over-contracting when
the contracted capacity strictly exceeds the maximal effective demand,
otherwise under-contracting (which covers the below-minimum case and
every other negative-savings state); exactly one branch applies. -/
theorem c5_rationale_rule (batteryCapacity contractedCapacity : ℚ) :
    (savings batteryCapacity contractedCapacity ≥ 0 →
        rationale batteryCapacity contractedCapacity = Rationale.peakReduction) ∧
    (savings batteryCapacity contractedCapacity < 0 →
      maxEffectiveDemand batteryCapacity < contractedCapacity →
        rationale batteryCapacity contractedCapacity = Rationale.overContracting) ∧
    (savings batteryCapacity contractedCapacity < 0 →
      ¬ maxEffectiveDemand batteryCapacity < contractedCapacity →
        rationale batteryCapacity contractedCapacity = Rationale.underContracting) := by
  unfold rationale negativeReason
  refine ⟨fun h => ?_, fun h1 h2 => ?_, fun h1 h2 => ?_⟩
  · rw [if_pos h]
  · rw [if_neg (not_le.mpr h1), if_pos h2]
  · rw [if_neg (not_le.mpr h1), if_neg h2, ite_self]

/-- Witness for C5: at the reference state the savings are nonnegative
and the peak-reduction rationale is rendered. -/
theorem c5_witness :
    savings 400 3100 ≥ 0 ∧ rationale 400 3100 = Rationale.peakReduction := by
  have hs : savings 400 3100 ≥ 0 := by
    norm_num [savings, totalCharge, monthlyCharges, totalOriginalCharge, originalCharges,
      effectiveDemands, effectiveSeries, maxDemands, calculateMonthlyCharge,
      calculateMonthlyChargeT, contractedRate, exceedanceRate]
  exact ⟨hs, (c5_rationale_rule 400 3100).1 hs⟩

/-- C6 counterexample: during a drag over a plot of height 400, a move
with vertical offset -5 (above the plot) leaves the capacity at 3100; it
does not set the upper boundary 4000 as the claim states. -/
theorem c6_counterexample :
    handleMouseMove 400 (-5) (JSNum.num 3100) = JSNum.num 3100 ∧
    JSNum.num (3100:ℚ) ≠ JSNum.num 4000 := by
  constructor
  · have hnot : ¬ ((0:ℚ) ≤ -5 ∧ (-5:ℚ) ≤ 400) := by norm_num
    unfold handleMouseMove
    rw [if_neg hnot]
  · intro h
    exact absurd (JSNum.num.inj h) (by norm_num)

/-- C6 amended: for a plot of height H greater than 0, a pointer move
with offset outside [0, H] is ignored (the capacity keeps its last
value, rather than being set to a boundary), and a drag never stores a
finite capacity outside [1000, 4000]. -/
theorem c6_drag_clamp (chartHeight yPixel : ℚ) (cur : JSNum) (hH : 0 < chartHeight) :
    ((yPixel < 0 ∨ chartHeight < yPixel) →
        handleMouseMove chartHeight yPixel cur = cur) ∧
    (handleMouseMove chartHeight yPixel cur = cur ∨
      ∃ q : ℚ, handleMouseMove chartHeight yPixel cur = JSNum.num q ∧
        1000 ≤ q ∧ q ≤ 4000) := by
  constructor
  · intro hout
    have hnot : ¬ (0 ≤ yPixel ∧ yPixel ≤ chartHeight) := by
      rcases hout with h | h
      · exact fun hand => absurd hand.1 (not_le.mpr h)
      · exact fun hand => absurd hand.2 (not_le.mpr h)
    unfold handleMouseMove
    rw [if_neg hnot]
  · by_cases hin : 0 ≤ yPixel ∧ yPixel ≤ chartHeight
    · right
      rw [handleMouseMove_inRange chartHeight yPixel cur (ne_of_gt hH) hin.1 hin.2]
      refine ⟨_, rfl, le_max_left _ _, ?_⟩
      exact max_le (by norm_num) (min_le_left _ _)
    · left
      unfold handleMouseMove
      rw [if_neg hin]

/-- Witness for C6: at height 400, the out-of-plot move to offset -5
keeps the stored capacity 2000, and the result is the kept value. -/
theorem c6_witness :
    (((-5:ℚ) < 0 ∨ (400:ℚ) < -5) →
        handleMouseMove 400 (-5) (JSNum.num 2000) = JSNum.num 2000) ∧
    (handleMouseMove 400 (-5) (JSNum.num 2000) = JSNum.num 2000 ∨
      ∃ q : ℚ, handleMouseMove 400 (-5) (JSNum.num 2000) = JSNum.num q ∧
        1000 ≤ q ∧ q ≤ 4000) :=
  c6_drag_clamp 400 (-5) (JSNum.num 2000) (by norm_num)

/-- C7: with a zero-height plot area and the pointer at its top edge the
drag mapping stores NaN into the contracted capacity instead of keeping
the last valid value 3100 — the code contradicts the specified policy. -/
theorem c7_zero_height_nan :
    handleMouseMove 0 0 (JSNum.num 3100) = JSNum.nan ∧
    JSNum.nan ≠ JSNum.num 3100 := by
  refine ⟨handleMouseMove_zero_height (JSNum.num 3100), ?_⟩
  intro h
  exact JSNum.noConfusion h

/-- C8: every finite capacity stored by an in-plot drag move is an
integer multiple of 10, and the optimizer result is an integer multiple
of 10 for every tariff and effective-demand series. -/
theorem c8_quantization :
    (∀ (chartHeight yPixel : ℚ) (cur : JSNum) (q : ℚ), 0 ≤ yPixel → yPixel ≤ chartHeight →
        handleMouseMove chartHeight yPixel cur = JSNum.num q → ∃ k : ℤ, q = 10 * k) ∧
    (∀ (cr er : ℚ) (eff : List ℚ), ∃ k : ℤ, findOptimalCapacityT cr er eff = 10 * k) := by
  constructor
  · intro chartHeight yPixel cur q h0 hy heq
    by_cases hH : chartHeight = 0
    · subst hH
      have hy0 : yPixel = 0 := le_antisymm hy h0
      subst hy0
      rw [handleMouseMove_zero_height cur] at heq
      exact JSNum.noConfusion heq
    · rw [handleMouseMove_inRange chartHeight yPixel cur hH h0 hy] at heq
      have hq := JSNum.num.inj heq
      obtain ⟨j, hj⟩ := clamp_mul10 (round ((1 - yPixel / chartHeight) * 4000 / 10))
      exact ⟨j, by rw [← hq, hj]⟩
  · intro cr er eff
    exact mem_capacityGrid_mul10 _ (findOptimalCapacityT_spec cr er eff).1

/-- Witness for C8: the in-plot move at height 400 and offset 100 stores
3000, a multiple of 10, and the reference optimizer output is a multiple
of 10. -/
theorem c8_witness :
    (∃ k : ℤ, (3000:ℚ) = 10 * k) ∧
    (∃ k : ℤ, findOptimalCapacityT contractedRate exceedanceRate (effectiveDemands 400) =
      10 * k) :=
  ⟨c8_quantization.1 400 100 (JSNum.num 3100) 3000 (by norm_num) (by norm_num)
      (by norm_num [handleMouseMove, jsDiv, jsSub, jsMul, jsRound, jsMin, jsMax, round_eq]),
    c8_quantization.2 contractedRate exceedanceRate (effectiveDemands 400)⟩

/-- C9: the manual-edit handlers store the typed number without any
clamping, so a manual edit can leave the state outside the documented
bounds: typing 5000 stores contracted capacity 5000 above 4000, and
typing 2000 stores battery capacity 2000 above 1000. -/
theorem c9_manual_edit_no_clamp :
    (contractedInputChange ⟨400, 3100⟩ 5000).contractedCapacity = 5000 ∧
    ¬ ((contractedInputChange ⟨400, 3100⟩ 5000).contractedCapacity ≤ 4000) ∧
    (batteryInputChange ⟨400, 3100⟩ 2000).batteryCapacity = 2000 ∧
    ¬ ((batteryInputChange ⟨400, 3100⟩ 2000).batteryCapacity ≤ 1000) := by
  refine ⟨rfl, ?_, rfl, ?_⟩ <;> norm_num [contractedInputChange, batteryInputChange]

/-- C10: the optimizer result read by the button handler depends only on
the battery capacity of the state: two states with the same battery
capacity, whatever their current contracted capacities, give the
identical optimizer output. -/
theorem c10_optimizer_noninterference (s1 s2 : ModelState)
    (h : s1.batteryCapacity = s2.batteryCapacity) :
    handleSetOptimalCapacityResult s1 = handleSetOptimalCapacityResult s2 := by
  unfold handleSetOptimalCapacityResult
  rw [h]

/-- Witness for C10: states with battery 400 and contracted capacities
3100 and 2000 give the identical optimizer output. -/
theorem c10_witness :
    handleSetOptimalCapacityResult ⟨400, 3100⟩ = handleSetOptimalCapacityResult ⟨400, 2000⟩ :=
  c10_optimizer_noninterference ⟨400, 3100⟩ ⟨400, 2000⟩ rfl

end IteWest
